import Mathlib

/-!
Shallow embedding of the discord-tracker pipeline notifier (Rust) in Lean 4,
together with theorems settling the frozen claims about its specification.

Source files embedded: src/validation.rs, src/models.rs, src/message_builder.rs,
src/pipeline_tracker.rs, src/storage.rs.

Modelling conventions:
- Rust u32 values are Nat (the operations used on them are comparisons and
  display only, so no wrap-around arises).
- Calls to Utc::now() are lifted to explicit parameters of type DT.
- f64 arithmetic in the progress percentage is modelled bit-exactly: IEEE
  binary64 values are dyadic pairs (m, e) with a 53-bit significand, and every
  operation rounds to nearest, ties to even, as the hardware does.
- serde_json (de)serialization is modelled at the JSON value level.
-/

namespace Tracker

/-- Status of a pipeline step, from StepStatus in src/models.rs. -/
inductive StepStatus where
| success
| pending
| failed
deriving DecidableEq, Repr

/-- Error type, from TrackerError in src/error.rs (transport and I/O
variants are omitted because effects are modelled as pure data). -/
inductive TrackerError where
| invalidStatus (s : String)
| invalidStepNumber (n : Nat)
| invalidTotalSteps (n : Nat)
| stepNumberExceedsTotal (s t : Nat)
| invalidChannelId (s : String)
| invalidBotToken
deriving DecidableEq, Repr

/-- Codepoint ranges (inclusive) of the Unicode general categories Nd, Nl and
No, Unicode 14.0. Models the character class accepted by Rust's
char::is_numeric, which returns true exactly for these three categories. -/
def numericRanges : List (Nat × Nat) := [(48, 57), (178, 179), (185, 185), (188, 190), (1632, 1641), (1776, 1785), (1984, 1993), (2406, 2415), (2534, 2543), (2548, 2553), (2662, 2671), (2790, 2799), (2918, 2927), (2930, 2935), (3046, 3058), (3174, 3183), (3192, 3198), (3302, 3311), (3416, 3422), (3430, 3448), (3558, 3567), (3664, 3673), (3792, 3801), (3872, 3891), (4160, 4169), (4240, 4249), (4969, 4988), (5870, 5872), (6112, 6121), (6128, 6137), (6160, 6169), (6470, 6479), (6608, 6618), (6784, 6793), (6800, 6809), (6992, 7001), (7088, 7097), (7232, 7241), (7248, 7257), (8304, 8304), (8308, 8313), (8320, 8329), (8528, 8578), (8581, 8585), (9312, 9371), (9450, 9471), (10102, 10131), (11517, 11517), (12295, 12295), (12321, 12329), (12344, 12346), (12690, 12693), (12832, 12841), (12872, 12879), (12881, 12895), (12928, 12937), (12977, 12991), (42528, 42537), (42726, 42735), (43056, 43061), (43216, 43225), (43264, 43273), (43472, 43481), (43504, 43513), (43600, 43609), (44016, 44025), (65296, 65305), (65799, 65843), (65856, 65912), (65930, 65931), (66273, 66299), (66336, 66339), (66369, 66369), (66378, 66378), (66513, 66517), (66720, 66729), (67672, 67679), (67705, 67711), (67751, 67759), (67835, 67839), (67862, 67867), (68028, 68029), (68032, 68047), (68050, 68095), (68160, 68168), (68221, 68222), (68253, 68255), (68331, 68335), (68440, 68447), (68472, 68479), (68521, 68527), (68858, 68863), (68912, 68921), (69216, 69246), (69405, 69414), (69457, 69460), (69573, 69579), (69714, 69743), (69872, 69881), (69942, 69951), (70096, 70105), (70113, 70132), (70384, 70393), (70736, 70745), (70864, 70873), (71248, 71257), (71360, 71369), (71472, 71483), (71904, 71922), (72016, 72025), (72784, 72812), (73040, 73049), (73120, 73129), (73664, 73684), (74752, 74862), (92768, 92777), (92864, 92873), (93008, 93017), (93019, 93025), (93824, 93846), (119520, 119539), (119648, 119672), (120782, 120831), (123200, 123209), (123632, 123641), (125127, 125135), (125264, 125273), (126065, 126123), (126125, 126127), (126129, 126132), (126209, 126253), (126255, 126269), (127232, 127244), (130032, 130041)]

/-- Model of Rust char::is_numeric (general category Nd, Nl or No). -/
def charIsNumeric (c : Char) : Bool :=
  numericRanges.any (fun p => decide (p.1 ≤ c.toNat) && decide (c.toNat ≤ p.2))

/-- ASCII decimal digit test. -/
def isAsciiDigit (c : Char) : Bool :=
  decide (48 ≤ c.toNat) && decide (c.toNat ≤ 57)

/-- Maps ASCII uppercase letters to lowercase and leaves other characters
unchanged. Models Rust str::to_lowercase restricted to the comparisons made
by this program, whose reference words are all ASCII. -/
def asciiLowerChar (c : Char) : Char :=
  if 65 ≤ c.toNat ∧ c.toNat ≤ 90 then Char.ofNat (c.toNat + 32) else c

/-- Nonempty all-digit character run. -/
def isDigits1 (cs : List Char) : Bool :=
  !cs.isEmpty && cs.all isAsciiDigit

/-- Mantissa of a Rust float literal: Digit+, Digit+ followed by a dot and
Digit*, or Digit* followed by a dot and Digit+. Equivalently: only digits and
dots, at most one dot, and at least one digit. -/
def isMantissa (cs : List Char) : Bool :=
  cs.all (fun c => isAsciiDigit c || c == '.') &&
  decide ((cs.filter (fun c => c == '.')).length ≤ 1) &&
  cs.any isAsciiDigit

/-- Exponent tail of a Rust float literal (after the e or E): an optional
sign followed by at least one digit. -/
def isExpTail (cs : List Char) : Bool :=
  match cs with
  | '+' :: rest => isDigits1 rest
  | '-' :: rest => isDigits1 rest
  | _ => isDigits1 cs

/-- Splits a character run at the first e or E, if any. -/
def splitAtExpChar : List Char → List Char × Option (List Char)
| [] => ([], none)
| c :: rest =>
  if c == 'e' || c == 'E' then ([], some rest)
  else
    let r := splitAtExpChar rest
    (c :: r.1, r.2)

/-- Number production of the Rust f64 grammar: Mantissa Exp?. -/
def isF64Number (cs : List Char) : Bool :=
  match splitAtExpChar cs with
  | (m, none) => isMantissa m
  | (m, some e) => isMantissa m && isExpTail e

/-- Body of a Rust float literal after the optional leading sign:
inf, infinity or nan (case-insensitive), or a Number. -/
def isF64Body (cs : List Char) : Bool :=
  let l := cs.map asciiLowerChar
  l == "inf".data || l == "infinity".data || l == "nan".data || isF64Number cs

/-- Recognizer for the whole-string grammar accepted by Rust's
f64::from_str: Sign? followed by inf, infinity, nan or a Number. Models the
success condition of channel_id.parse::<f64>() in src/validation.rs (the
parse never fails for range reasons, only for syntax, so acceptance of this
grammar is exactly parse success). -/
def isF64Lit (cs : List Char) : Bool :=
  match cs with
  | '+' :: rest => isF64Body rest
  | '-' :: rest => isF64Body rest
  | _ => isF64Body cs

/-- Embedding of validate_bot_token from src/validation.rs. -/
def validateBotToken (token : String) : Except TrackerError Unit :=
  if token = "" then .error .invalidBotToken else .ok ()

/-- Embedding of validate_channel_id from src/validation.rs: empty strings
fail; strings containing E or e succeed exactly when they parse as f64;
otherwise every character must satisfy char::is_numeric. -/
def validateChannelId (channel_id : String) : Except TrackerError Unit :=
  if channel_id = "" then .error (.invalidChannelId channel_id)
  else if channel_id.data.any (fun c => c == 'E' || c == 'e') then
    if isF64Lit channel_id.data then .ok ()
    else .error (.invalidChannelId channel_id)
  else if !channel_id.data.all charIsNumeric then
    .error (.invalidChannelId channel_id)
  else .ok ()

/-- Embedding of validate_step_number from src/validation.rs. -/
def validateStepNumber (step total_steps : Nat) : Except TrackerError Unit :=
  if step = 0 then .error (.invalidStepNumber step)
  else if total_steps = 0 then .error (.invalidTotalSteps total_steps)
  else if step > total_steps then .error (.stepNumberExceedsTotal step total_steps)
  else .ok ()

example : validateChannelId "1234567890123456789" = .ok () := rfl
example : validateChannelId "1.39589530256487E+18" = .ok () := rfl
example : validateChannelId "1.39589530256487e+18" = .ok () := rfl
example : validateChannelId "" = .error (.invalidChannelId "") := rfl
example : validateChannelId "123abc456" = .error (.invalidChannelId "123abc456") := rfl
example : validateChannelId "1.2E+invalid" = .error (.invalidChannelId "1.2E+invalid") := rfl
example : validateChannelId "¾" = .ok () := rfl
example : validateStepNumber 0 10 = .error (.invalidStepNumber 0) := rfl
example : validateStepNumber 1 0 = .error (.invalidTotalSteps 0) := rfl
example : validateStepNumber 11 10 = .error (.stepNumberExceedsTotal 11 10) := rfl
example : validateStepNumber 10 10 = .ok () := rfl

/-- Calendar timestamp with nanosecond precision, modelling chrono
DateTime<Utc> by its displayed components. chrono both Debug-prints and
serializes a UTC datetime componentwise, so component equality coincides with
chrono equality on valid values. -/
structure DT where
  year : Nat
  month : Nat
  day : Nat
  hour : Nat
  minute : Nat
  second : Nat
  nanos : Nat
deriving DecidableEq, Repr

/-- One tracked pipeline step, from StepInfo in src/models.rs. -/
structure StepInfo where
  number : Nat
  name : String
  status : StepStatus
  additional_info : List (String × String)
  started_at : DT
  completed_at : Option DT
deriving DecidableEq, Repr

/-- Embedding of StepInfo::new from src/models.rs; Utc::now() is the explicit
now argument. -/
def StepInfo.new (number : Nat) (name : String) (status : StepStatus)
    (additional_info : List (String × String)) (now : DT) : StepInfo :=
  { number := number, name := name, status := status,
    additional_info := additional_info, started_at := now, completed_at := none }

/-- Embedding of StepInfo::mark_completed from src/models.rs. -/
def StepInfo.markCompleted (s : StepInfo) (now : DT) : StepInfo :=
  { s with completed_at := some now }

/-- Discord embed field, from DiscordField in src/models.rs. -/
structure DiscordField where
  name : String
  value : String
  inline : Bool
deriving DecidableEq, Repr

/-- Discord embed footer, from DiscordFooter in src/models.rs. -/
structure DiscordFooter where
  text : String
deriving DecidableEq, Repr

/-- Discord embed, from DiscordEmbed in src/models.rs. -/
structure DiscordEmbed where
  title : String
  description : String
  color : Nat
  fields : List DiscordField
  timestamp : DT
  footer : Option DiscordFooter
deriving DecidableEq, Repr

/-- ASCII digit character for a digit value below 10. -/
def digitChar (d : Nat) : Char := Char.ofNat (48 + d)

/-- Two-digit zero-padded decimal rendering (for values below 100). -/
def pad2 (n : Nat) : List Char := [digitChar (n / 10), digitChar (n % 10)]

/-- Three-digit zero-padded decimal rendering (for values below 1000). -/
def pad3 (n : Nat) : List Char :=
  [digitChar (n / 100), digitChar (n / 10 % 10), digitChar (n % 10)]

/-- Four-digit zero-padded decimal rendering (for values below 10000). -/
def pad4 (n : Nat) : List Char :=
  [digitChar (n / 1000), digitChar (n / 100 % 10), digitChar (n / 10 % 10), digitChar (n % 10)]

/-- Rendering of the chrono format string used by the embed footers,
yyyy-mm-dd hh:mm:ss UTC. -/
def fmtTimestampUTC (d : DT) : String :=
  String.mk (pad4 d.year ++ '-' :: pad2 d.month ++ '-' :: pad2 d.day ++
    ' ' :: pad2 d.hour ++ ':' :: pad2 d.minute ++ ':' :: pad2 d.second) ++ " UTC"

/-- Count of steps with status Success, as computed by the iterator filters in
src/message_builder.rs. -/
def countSuccess (steps : List StepInfo) : Nat :=
  (steps.filter (fun s => s.status == StepStatus.success)).length

/-- Count of steps with status Failed, as computed by the iterator filters in
src/message_builder.rs. -/
def countFailed (steps : List StepInfo) : Nat :=
  (steps.filter (fun s => s.status == StepStatus.failed)).length

/-- Embedding of get_status_color from src/message_builder.rs. -/
def getStatusColor (failed_steps completed_steps : Nat) (total_steps : Nat) : Nat :=
  if failed_steps > 0 then 0xff0000
  else if completed_steps = total_steps then 0x00ff00
  else 0xffff00

/-- Number of binary digits of a natural number (0 for 0), by structural
recursion on a fuel bounded by the number itself, so that it evaluates inside
the kernel. -/
def natBitsAux : Nat → Nat → Nat
| 0, _ => 0
| fuel + 1, n => if n = 0 then 0 else natBitsAux fuel (n / 2) + 1

/-- Number of binary digits of a natural number (0 for 0). -/
def natBits (n : Nat) : Nat := natBitsAux n n

example : natBits 0 = 0 := rfl
example : natBits 29 = 5 := rfl
example : natBits (2 ^ 52) = 53 := rfl

/-- Rounds q / 2^k to the nearest integer, ties to even; sticky records
whether further nonzero value sits below the k dropped bits, turning an
apparent tie into a round up. This is IEEE round-to-nearest-even on a value
whose fraction is q's low k bits plus the sticky rest. -/
def roundSticky (q k : Nat) (sticky : Bool) : Nat :=
  let qq := q / 2 ^ k
  let rr := q % 2 ^ k
  if 2 * rr < 2 ^ k then qq
  else if 2 ^ k < 2 * rr then qq + 1
  else if sticky then qq + 1
  else if qq % 2 = 0 then qq else qq + 1

/-- Nonnegative finite IEEE binary64 value, as the dyadic number m * 2^e with
the significand normalized to 2^52 ≤ m < 2^53, or m = 0 for zero. Every value
arising in the progress computation is nonnegative and finite (counts are a
usize and a u32, so no overflow to infinity and no NaN can occur), so this
carrier models Rust's f64 exactly there. -/
structure F64 where
  m : Nat
  e : Int
deriving DecidableEq, Repr

/-- The binary64 value nearest to n * 2^e (ties to even): the exact value when
n fits in 53 bits, else n rounded to a 53-bit significand. -/
def mkF64 (n : Nat) (e : Int) : F64 :=
  if n = 0 then ⟨0, 0⟩
  else
    let b := natBits n
    if b ≤ 53 then ⟨n * 2 ^ (53 - b), e - (53 - b)⟩
    else
      let k := b - 53
      let m := roundSticky n k false
      if m = 2 ^ 53 then ⟨2 ^ 52, e + k + 1⟩ else ⟨m, e + k⟩

/-- Rust's integer-to-f64 cast (round to nearest, ties to even). -/
def F64.ofNat (n : Nat) : F64 := mkF64 n 0

/-- IEEE binary64 division: the correctly rounded quotient. The scaled
integer quotient q = x.m * 2^54 / y.m keeps 54 guard bits; its division
remainder is the sticky bit, and q (54 or 55 bits) is rounded back to 53 bits
ties-to-even. The zero guards model 0/y = 0; x/0 cannot arise in this
program (total_steps ≥ 1 on the division path). -/
def F64.div (x y : F64) : F64 :=
  if x.m = 0 ∨ y.m = 0 then ⟨0, 0⟩
  else
    let num := x.m * 2 ^ 54
    let q := num / y.m
    let r := num % y.m
    let k := natBits q - 53
    let m := roundSticky q k (decide (r ≠ 0))
    let e : Int := x.e - y.e - 54 + k
    if m = 2 ^ 53 then ⟨2 ^ 52, e + 1⟩ else ⟨m, e⟩

/-- IEEE binary64 multiplication by an exactly representable small constant
(here 100.0): the correctly rounded exact product. -/
def F64.mulNat (x : F64) (c : Nat) : F64 := mkF64 (x.m * c) x.e

/-- Rust's f64-to-u32 as-cast on a nonnegative finite value: truncate toward
zero and saturate at u32::MAX. -/
def F64.toU32 (x : F64) : Nat :=
  let v := if 0 ≤ x.e then x.m * 2 ^ x.e.toNat else x.m / 2 ^ (-x.e).toNat
  min v 4294967295

/-- Progress percentage computed in build_step_update_embed: the Rust
expression (completed_steps as f64 / total_steps as f64 * 100.0) as u32,
modelled bit-exactly over the dyadic carrier, else 0 when total_steps is 0.
Because of double rounding this can be one below the exact
floor(completed/total * 100): 29.0/100.0*100.0 is the binary64 value just
under 29 and casts to 28. -/
def progressPercentage (completed_steps total_steps : Nat) : Nat :=
  if total_steps > 0 then
    (((F64.ofNat completed_steps).div (F64.ofNat total_steps)).mulNat 100).toU32
  else 0

example : progressPercentage 1 2 = 50 := rfl
example : progressPercentage 3 4 = 75 := rfl
example : progressPercentage 1 3 = 33 := rfl
example : progressPercentage 29 100 = 28 := rfl
example : progressPercentage 58 100 = 57 := rfl
example : progressPercentage 100 100 = 100 := rfl

/-- Embedding of format_duration from src/message_builder.rs; the chrono
Duration is modelled by its whole number of seconds (an i64), from which the
code derives num_minutes and the residual seconds with Rust's truncating
division and remainder. -/
def formatDuration (durSecs : Int) : String :=
  let minutes := Int.tdiv durSecs 60
  let seconds := Int.tmod durSecs 60
  if minutes > 0 then toString minutes ++ "m " ++ toString seconds ++ "s"
  else toString seconds ++ "s"

/-- Embedding of build_init_embed from src/message_builder.rs. -/
def buildInitEmbed (pr_number pr_title author repository branch : String)
    (now : DT) : DiscordEmbed :=
  { title := "🚀 Pipeline Started - PR #" ++ pr_number
    description := "**" ++ pr_title ++ "**\n\n**Author:** " ++ author ++
      "\n**Repository:** " ++ repository ++ "\n**Branch:** " ++ branch
    color := 0x00ff00
    fields := [
      { name := "Status", value := "🔄 Initializing...", inline := true },
      { name := "Progress", value := "0/0 steps completed", inline := true }]
    timestamp := now
    footer := some { text := "Started at " ++ fmtTimestampUTC now } }

/-- Embedding of build_step_update_embed from src/message_builder.rs. -/
def buildStepUpdateEmbed (pr_number pr_title : String) (steps : List StepInfo)
    (current_step total_steps : Nat) (now : DT) : DiscordEmbed :=
  let completed_steps := countSuccess steps
  let failed_steps := countFailed steps
  let progress_percentage := progressPercentage completed_steps total_steps
  let status_emoji :=
    if failed_steps > 0 then "❌"
    else if completed_steps = total_steps then "✅"
    else "🔄"
  let status_text :=
    if failed_steps > 0 then "Failed"
    else if completed_steps = total_steps then "Completed"
    else "In Progress"
  { title := status_emoji ++ " Pipeline Update - PR #" ++ pr_number
    description := "**" ++ pr_title ++ "**"
    color := getStatusColor failed_steps completed_steps total_steps
    fields := [
      { name := "Status", value := status_emoji ++ " " ++ status_text, inline := true },
      { name := "Progress",
        value := toString completed_steps ++ "/" ++ toString total_steps ++
          " steps completed (" ++ toString progress_percentage ++ "%)",
        inline := true },
      { name := "Current Step",
        value := "Step " ++ toString current_step ++ " of " ++ toString total_steps,
        inline := true }]
    timestamp := now
    footer := some { text := "Updated at " ++ fmtTimestampUTC now } }

/-- Embedding of build_completion_embed from src/message_builder.rs; the
duration Utc::now() - start_time is modelled by its whole seconds durSecs. -/
def buildCompletionEmbed (pr_number pr_title : String) (steps : List StepInfo)
    (total_steps : Nat) (durSecs : Int) (now : DT) : DiscordEmbed :=
  let completed_steps := countSuccess steps
  let failed_steps := countFailed steps
  let status_emoji := if failed_steps > 0 then "❌" else "✅"
  let status_text := if failed_steps > 0 then "Failed" else "Completed"
  { title := status_emoji ++ " Pipeline " ++ status_text ++ " - PR #" ++ pr_number
    description := "**" ++ pr_title ++ "**\n\n**Duration:** " ++
      formatDuration durSecs ++ "\n**Steps:** " ++ toString completed_steps ++
      "/" ++ toString total_steps ++ " completed"
    color := getStatusColor failed_steps completed_steps total_steps
    fields := [
      { name := "Status", value := status_emoji ++ " " ++ status_text, inline := true },
      { name := "Duration", value := formatDuration durSecs, inline := true }]
    timestamp := now
    footer := some { text := "Completed at " ++ fmtTimestampUTC now } }

/-- Fixed sample timestamp used by concrete witnesses and counterexamples. -/
def dt0 : DT := ⟨2024, 1, 1, 0, 0, 0, 0⟩

lemma countFailed_pos_iff (steps : List StepInfo) :
    0 < countFailed steps ↔ steps.any (fun s => s.status == StepStatus.failed) = true := by
  rw [countFailed, List.length_pos, Ne, List.filter_eq_nil_iff]
  simp [List.any_eq_true]

/-- Status selection rule of claim C1, transcribed from the claim text: any
Failed step gives the failure rendering (red), else a Success count equal to
total_steps gives the success rendering (green), else in-progress (yellow).
The value is (emoji, text, color). -/
def c1SpecStatus (steps : List StepInfo) (total_steps : Nat) : String × String × Nat :=
  if steps.any (fun s => s.status == StepStatus.failed) then ("❌", "Failed", 0xff0000)
  else if countSuccess steps = total_steps then ("✅", "Completed", 0x00ff00)
  else ("🔄", "In Progress", 0xffff00)

/-- Claim C1: for every step list, caller-supplied current step and
total_steps, build_step_update_embed selects status emoji, status text and
color by the precedence: any Failed step gives ❌/Failed/red; else Success
count equal to total_steps gives ✅/Completed/green; else 🔄/In Progress/yellow. -/
theorem claim_C1 (pr_number pr_title : String) (steps : List StepInfo)
    (current_step total_steps : Nat) (now : DT) :
    (buildStepUpdateEmbed pr_number pr_title steps current_step total_steps now).color =
      (c1SpecStatus steps total_steps).2.2 ∧
    (buildStepUpdateEmbed pr_number pr_title steps current_step total_steps now).fields.head? =
      some ⟨"Status", (c1SpecStatus steps total_steps).1 ++ " " ++
        (c1SpecStatus steps total_steps).2.1, true⟩ ∧
    (buildStepUpdateEmbed pr_number pr_title steps current_step total_steps now).title =
      (c1SpecStatus steps total_steps).1 ++ " Pipeline Update - PR #" ++ pr_number := by
  by_cases hf : 0 < countFailed steps
  · have hany := (countFailed_pos_iff steps).mp hf
    simp [buildStepUpdateEmbed, c1SpecStatus, getStatusColor, hany, hf]
  · have hany : ¬ steps.any (fun s => s.status == StepStatus.failed) = true :=
      fun h => hf ((countFailed_pos_iff steps).mpr h)
    by_cases hc : countSuccess steps = total_steps
    · simp [buildStepUpdateEmbed, c1SpecStatus, getStatusColor, hany, hf, hc]
    · simp [buildStepUpdateEmbed, c1SpecStatus, getStatusColor, hany, hf, hc]

/-- Amended status rule for claim C2: emoji and text follow the any-failure
rule, but the color is computed by get_status_color from the Success count and
the caller-supplied total, so a completion embed with no failures and a
Success count different from total_steps is yellow, not green. -/
def c2AmendedStatus (steps : List StepInfo) (total_steps : Nat) : String × String × Nat :=
  if steps.any (fun s => s.status == StepStatus.failed) then ("❌", "Failed", 0xff0000)
  else ("✅", "Completed",
    if countSuccess steps = total_steps then 0x00ff00 else 0xffff00)

/-- Claim C2 (amended): build_completion_embed renders ❌/Failed with red
color when at least one step is Failed; otherwise it renders ✅/Completed, and
the color is green only when the Success count equals total_steps, yellow
otherwise. -/
theorem claim_C2_amended (pr_number pr_title : String) (steps : List StepInfo)
    (total_steps : Nat) (durSecs : Int) (now : DT) :
    (buildCompletionEmbed pr_number pr_title steps total_steps durSecs now).color =
      (c2AmendedStatus steps total_steps).2.2 ∧
    (buildCompletionEmbed pr_number pr_title steps total_steps durSecs now).fields.head? =
      some ⟨"Status", (c2AmendedStatus steps total_steps).1 ++ " " ++
        (c2AmendedStatus steps total_steps).2.1, true⟩ ∧
    (buildCompletionEmbed pr_number pr_title steps total_steps durSecs now).title =
      (c2AmendedStatus steps total_steps).1 ++ " Pipeline " ++
        (c2AmendedStatus steps total_steps).2.1 ++ " - PR #" ++ pr_number := by
  by_cases hf : 0 < countFailed steps
  · have hany := (countFailed_pos_iff steps).mp hf
    simp [buildCompletionEmbed, c2AmendedStatus, getStatusColor, hany, hf]
  · have hany : ¬ steps.any (fun s => s.status == StepStatus.failed) = true :=
      fun h => hf ((countFailed_pos_iff steps).mpr h)
    by_cases hc : countSuccess steps = total_steps
    · simp [buildCompletionEmbed, c2AmendedStatus, getStatusColor, hany, hf, hc]
    · simp [buildCompletionEmbed, c2AmendedStatus, getStatusColor, hany, hf, hc]

/-- Counterexample to claim C2 as stated: with one Pending step and
total_steps 1 there is no Failed step, yet the completion embed's color is
yellow (0xffff00), not green (0x00ff00), while its text reads ✅ Completed. -/
theorem claim_C2_counterexample :
    (buildCompletionEmbed "42" "Title" [⟨1, "Build", .pending, [], dt0, none⟩] 1 0 dt0).fields.head? =
      some ⟨"Status", "✅ Completed", true⟩ ∧
    (buildCompletionEmbed "42" "Title" [⟨1, "Build", .pending, [], dt0, none⟩] 1 0 dt0).color =
      0xffff00 ∧
    (0xffff00 : Nat) ≠ 0x00ff00 :=
  ⟨rfl, rfl, by decide⟩

/-- Rule for validate_channel_id in the amended claim C3: empty fails; with an
E or e present, success is exactly acceptance by the Rust f64 grammar;
otherwise success is exactly every character being Unicode-numeric
(char::is_numeric, categories Nd, Nl, No) rather than only ASCII decimal. -/
def c3AmendedSpec (s : String) : Except TrackerError Unit :=
  if s = "" then .error (.invalidChannelId s)
  else if s.data.any (fun c => c == 'E' || c == 'e') then
    if isF64Lit s.data then .ok () else .error (.invalidChannelId s)
  else if s.data.all charIsNumeric then .ok ()
  else .error (.invalidChannelId s)

/-- Claim C3 (amended): validate_channel_id fails on the empty string; for
strings containing E or e it succeeds iff the whole string parses as an f64;
for other non-empty strings it succeeds iff every character is numeric in the
Unicode sense of char::is_numeric (not only ASCII decimal digits). -/
theorem claim_C3_amended (s : String) : validateChannelId s = c3AmendedSpec s := by
  by_cases h : s.data.all charIsNumeric = true
  · simp [validateChannelId, c3AmendedSpec, h]
  · simp [validateChannelId, c3AmendedSpec, h]

/-- Counterexample to claim C3 as stated: the one-character string with the
vulgar fraction three quarters is non-empty, contains no E or e, and is not
made of decimal digits, yet validate_channel_id accepts it, because Rust's
char::is_numeric also accepts the Unicode categories Nl and No. -/
theorem claim_C3_counterexample :
    validateChannelId "¾" = .ok () ∧
    ("¾".data.all (fun c => c.isDigit)) = false ∧
    ("¾".data.any (fun c => c == 'E' || c == 'e')) = false ∧
    "¾" ≠ "" :=
  ⟨rfl, rfl, rfl, by decide⟩

/-- Claim C4: validate_step_number rejects step 0 with the invalid-step-number
error, then total 0 with the invalid-total-steps error, then step greater than
total with the exceeds-total error carrying both, and succeeds exactly on
1 ≤ step ≤ total. -/
theorem claim_C4 (step total_steps : Nat) :
    (step = 0 → validateStepNumber step total_steps = .error (.invalidStepNumber step)) ∧
    (step ≠ 0 → total_steps = 0 →
      validateStepNumber step total_steps = .error (.invalidTotalSteps total_steps)) ∧
    (step ≠ 0 → total_steps ≠ 0 → step > total_steps →
      validateStepNumber step total_steps = .error (.stepNumberExceedsTotal step total_steps)) ∧
    (1 ≤ step → step ≤ total_steps → validateStepNumber step total_steps = .ok ()) := by
  refine ⟨fun h1 => ?_, fun h1 h2 => ?_, fun h1 h2 h3 => ?_, fun h1 h2 => ?_⟩
  · simp [validateStepNumber, h1]
  · simp [validateStepNumber, h1, h2]
  · simp [validateStepNumber, h1, h2, h3]
  · have n1 : ¬ step = 0 := by omega
    have n2 : ¬ total_steps = 0 := by omega
    have n3 : ¬ step > total_steps := by omega
    simp [validateStepNumber, n1, n2, n3]

/-- Witness for claim C4 at the concrete inputs named by the claim. -/
theorem claim_C4_witness :
    validateStepNumber 0 10 = .error (.invalidStepNumber 0) ∧
    validateStepNumber 1 0 = .error (.invalidTotalSteps 0) ∧
    validateStepNumber 11 10 = .error (.stepNumberExceedsTotal 11 10) ∧
    validateStepNumber 5 10 = .ok () :=
  ⟨(claim_C4 0 10).1 rfl, (claim_C4 1 0).2.1 (by decide) rfl,
    (claim_C4 11 10).2.2.1 (by decide) (by decide) (by decide),
    (claim_C4 5 10).2.2.2 (by decide) (by decide)⟩

/-- Claim C9 (amended): the rendered progress percentage is the IEEE
double-precision computation (completed as f64 / total as f64 * 100.0)
truncated by the as-u32 cast, as modelled bit-exactly by progressPercentage;
double rounding can leave it one below floor(completed/total x 100), e.g. 29
Success steps of total 100 render 28. The percentage is 0 when total_steps is
0, and the Progress field reads completed/total steps completed (pct%). -/
theorem claim_C9_amended (pr_number pr_title : String) (steps : List StepInfo)
    (current_step total_steps : Nat) (now : DT) :
    (buildStepUpdateEmbed pr_number pr_title steps current_step total_steps now).fields.get? 1 =
      some ⟨"Progress", toString (countSuccess steps) ++ "/" ++ toString total_steps ++
        " steps completed (" ++
        toString (progressPercentage (countSuccess steps) total_steps) ++ "%)", true⟩ ∧
    progressPercentage (countSuccess steps) 0 = 0 ∧
    progressPercentage 29 100 = 28 :=
  ⟨rfl, rfl, rfl⟩

/-- Counterexample to claim C9 as stated: with 29 Success steps and
total_steps 100 the program renders 28 percent, not floor(29/100 x 100) = 29,
because 29.0/100.0*100.0 in binary64 is 28.999999999999996 and the u32 cast
truncates it. -/
theorem claim_C9_counterexample :
    (buildStepUpdateEmbed "1" "T"
        (List.replicate 29 ⟨1, "s", .success, [], dt0, some dt0⟩)
        30 100 dt0).fields.get? 1 =
      some ⟨"Progress", "29/100 steps completed (28%)", true⟩ ∧
    (29 * 100 / 100 : Nat) = 29 ∧
    (28 : Nat) ≠ 29 :=
  ⟨rfl, rfl, by decide⟩

example :
    (buildStepUpdateEmbed "1" "T"
      [⟨1, "Build", .success, [], dt0, some dt0⟩, ⟨2, "Test", .pending, [], dt0, none⟩]
      2 2 dt0).fields.get? 1 =
    some ⟨"Progress", "1/2 steps completed (50%)", true⟩ := rfl

deriving instance DecidableEq for Except

/-- Embedding of StepStatus::from_str from src/models.rs (case-insensitive
match on success, pending, failed). -/
def StepStatus.fromStr (s : String) : Except String StepStatus :=
  let l := String.mk (s.data.map asciiLowerChar)
  if l = "success" then .ok .success
  else if l = "pending" then .ok .pending
  else if l = "failed" then .ok .failed
  else .error ("Invalid status: " ++ s ++ ". Must be one of: success, pending, failed")

/-- First-occurrence overwrite or append, modelling the find-position and
index-assignment of update_step in src/pipeline_tracker.rs (lines 103 to 119):
when some step already carries this number, the first such step's name, status
and additional_info are replaced in place, otherwise a fresh step is pushed at
the end. -/
def upsertStep (steps : List StepInfo) (step_number : Nat) (step_name : String)
    (step_status : StepStatus) (additional_info : List (String × String))
    (now : DT) : List StepInfo :=
  match steps with
  | [] => [StepInfo.new step_number step_name step_status additional_info now]
  | s :: rest =>
    if s.number = step_number then
      { s with
        name := step_name
        status := step_status
        additional_info := additional_info } :: rest
    else s :: upsertStep rest step_number step_name step_status additional_info now

/-- Completion stamping pass of update_step in src/pipeline_tracker.rs (lines
121 to 126): mark_completed on the first step carrying the given number. -/
def stampCompleted (steps : List StepInfo) (step_number : Nat) (now : DT) :
    List StepInfo :=
  match steps with
  | [] => []
  | s :: rest =>
    if s.number = step_number then s.markCompleted now :: rest
    else s :: stampCompleted rest step_number now

/-- Pure core of PipelineTracker::update_step from src/pipeline_tracker.rs:
validate the step number, parse the status text, upsert the step by number,
and stamp completed_at when the new status is Success or Failed. Errors are
returned before any mutation, as in the code. -/
def updateStepList (steps : List StepInfo) (step_number total_steps : Nat)
    (step_name : String) (status : String)
    (additional_info : List (String × String)) (now : DT) :
    Except TrackerError (List StepInfo) :=
  match validateStepNumber step_number total_steps with
  | .error e => .error e
  | .ok _ =>
    match StepStatus.fromStr status with
    | .error e => .error (.invalidStatus e)
    | .ok step_status =>
      let steps1 := upsertStep steps step_number step_name step_status additional_info now
      if step_status = .success ∨ step_status = .failed then
        .ok (stampCompleted steps1 step_number now)
      else
        .ok steps1

/-- Arguments of one update_step invocation, with that invocation's
Utc::now() made explicit. -/
structure UpdCall where
  step_number : Nat
  total_steps : Nat
  step_name : String
  status : String
  additional_info : List (String × String)
  now : DT
deriving DecidableEq, Repr

/-- Step list after one update_step call: the new list on success, the
unchanged list when the call errors (all errors occur before any mutation). -/
def runCall (steps : List StepInfo) (c : UpdCall) : List StepInfo :=
  match updateStepList steps c.step_number c.total_steps c.step_name c.status
      c.additional_info c.now with
  | .ok s => s
  | .error _ => steps

/-- Step list after a sequence of update_step calls starting from the empty
list of a freshly constructed tracker. -/
def runCalls (calls : List UpdCall) : List StepInfo :=
  calls.foldl runCall []

/-- An update_step call whose arguments pass validation and status parsing. -/
def callOk (c : UpdCall) : Prop :=
  validateStepNumber c.step_number c.total_steps = .ok () ∧
  ∃ st, StepStatus.fromStr c.status = .ok st

/-- An update_step call that passes validation and carries a terminal
(Success or Failed) status. -/
def callTerminal (c : UpdCall) : Prop :=
  validateStepNumber c.step_number c.total_steps = .ok () ∧
  (StepStatus.fromStr c.status = .ok .success ∨
   StepStatus.fromStr c.status = .ok .failed)

lemma callTerminal.ok {c : UpdCall} (h : callTerminal c) : callOk c := by
  rcases h with ⟨hv, hst | hst⟩
  · exact ⟨hv, _, hst⟩
  · exact ⟨hv, _, hst⟩

lemma runCall_of_ok (steps : List StepInfo) (c : UpdCall) (st : StepStatus)
    (hv : validateStepNumber c.step_number c.total_steps = .ok ())
    (hp : StepStatus.fromStr c.status = .ok st) :
    runCall steps c =
      if st = .success ∨ st = .failed then
        stampCompleted
          (upsertStep steps c.step_number c.step_name st c.additional_info c.now)
          c.step_number c.now
      else upsertStep steps c.step_number c.step_name st c.additional_info c.now := by
  rw [runCall, updateStepList, hv, hp]
  by_cases ht : st = .success ∨ st = .failed
  · simp [ht]
  · simp [ht]

lemma runCall_of_fail (steps : List StepInfo) (c : UpdCall) (h : ¬ callOk c) :
    runCall steps c = steps := by
  rw [runCall, updateStepList]
  cases hv : validateStepNumber c.step_number c.total_steps with
  | error e => rfl
  | ok u =>
    cases u
    cases hp : StepStatus.fromStr c.status with
    | error e => rfl
    | ok st => exact absurd ⟨hv, st, hp⟩ h

/-- Overwrite of name, status and additional_info, as done by update_step on
an existing step. -/
def overwrite (s : StepInfo) (nm : String) (st : StepStatus)
    (info : List (String × String)) : StepInfo :=
  { s with
    name := nm
    status := st
    additional_info := info }

@[simp] lemma number_overwrite (s : StepInfo) (nm : String) (st : StepStatus)
    (info : List (String × String)) : (overwrite s nm st info).number = s.number := rfl

@[simp] lemma started_overwrite (s : StepInfo) (nm : String) (st : StepStatus)
    (info : List (String × String)) :
    (overwrite s nm st info).started_at = s.started_at := rfl

@[simp] lemma completed_overwrite (s : StepInfo) (nm : String) (st : StepStatus)
    (info : List (String × String)) :
    (overwrite s nm st info).completed_at = s.completed_at := rfl

@[simp] lemma number_markCompleted (s : StepInfo) (now : DT) :
    (s.markCompleted now).number = s.number := rfl

@[simp] lemma completed_markCompleted (s : StepInfo) (now : DT) :
    (s.markCompleted now).completed_at = some now := rfl

lemma upsert_cons (s : StepInfo) (rest : List StepInfo) (n : Nat) (nm : String)
    (st : StepStatus) (info : List (String × String)) (now : DT) :
    upsertStep (s :: rest) n nm st info now =
      if s.number = n then overwrite s nm st info :: rest
      else s :: upsertStep rest n nm st info now := rfl

lemma stamp_cons (s : StepInfo) (rest : List StepInfo) (n : Nat) (now : DT) :
    stampCompleted (s :: rest) n now =
      if s.number = n then s.markCompleted now :: rest
      else s :: stampCompleted rest n now := rfl

lemma upsert_of_not_mem (l : List StepInfo) (n : Nat) (nm : String)
    (st : StepStatus) (info : List (String × String)) (now : DT)
    (h : ∀ s ∈ l, s.number ≠ n) :
    upsertStep l n nm st info now = l ++ [StepInfo.new n nm st info now] := by
  induction l with
  | nil => rfl
  | cons s rest ih =>
    rw [upsert_cons, if_neg (h s (List.mem_cons_self s rest))]
    rw [ih (fun x hx => h x (List.mem_cons_of_mem s hx))]
    rfl

lemma upsert_eq_map_of_mem (l : List StepInfo) (n : Nat) (nm : String)
    (st : StepStatus) (info : List (String × String)) (now : DT)
    (hnd : (l.map StepInfo.number).Nodup) (h : n ∈ l.map StepInfo.number) :
    upsertStep l n nm st info now =
      l.map (fun s => if s.number = n then overwrite s nm st info else s) := by
  induction l with
  | nil => simp at h
  | cons s rest ih =>
    simp only [List.map_cons, List.nodup_cons] at hnd
    by_cases hs : s.number = n
    · rw [upsert_cons, if_pos hs]
      simp only [List.map_cons, if_pos hs]
      have hrest : ∀ x ∈ rest, ¬ x.number = n := by
        intro x hx hxn
        apply hnd.1
        rw [hs, ← hxn]
        exact List.mem_map_of_mem StepInfo.number hx
      rw [List.map_congr_left (fun x hx => if_neg (hrest x hx))]
      simp
    · rw [upsert_cons, if_neg hs]
      simp only [List.map_cons, if_neg hs]
      have hmem : n ∈ rest.map StepInfo.number := by
        rcases List.mem_cons.mp h with h1 | h1
        · exact absurd h1.symm hs
        · exact h1
      rw [ih hnd.2 hmem]

lemma stamp_eq_map (l : List StepInfo) (n : Nat) (now : DT)
    (hnd : (l.map StepInfo.number).Nodup) :
    stampCompleted l n now =
      l.map (fun s => if s.number = n then s.markCompleted now else s) := by
  induction l with
  | nil => rfl
  | cons s rest ih =>
    simp only [List.map_cons, List.nodup_cons] at hnd
    by_cases hs : s.number = n
    · rw [stamp_cons, if_pos hs]
      simp only [List.map_cons, if_pos hs]
      have hrest : ∀ x ∈ rest, ¬ x.number = n := by
        intro x hx hxn
        apply hnd.1
        rw [hs, ← hxn]
        exact List.mem_map_of_mem StepInfo.number hx
      rw [List.map_congr_left (fun x hx => if_neg (hrest x hx))]
      simp
    · rw [stamp_cons, if_neg hs]
      simp only [List.map_cons, if_neg hs]
      rw [ih hnd.2]

lemma stamp_length (l : List StepInfo) (n : Nat) (now : DT) :
    (stampCompleted l n now).length = l.length := by
  induction l with
  | nil => rfl
  | cons s rest ih =>
    by_cases hs : s.number = n
    · rw [stamp_cons, if_pos hs]
      simp
    · rw [stamp_cons, if_neg hs]
      simp [ih]

lemma upsert_length_of_mem (l : List StepInfo) (n : Nat) (nm : String)
    (st : StepStatus) (info : List (String × String)) (now : DT)
    (h : ∃ s ∈ l, s.number = n) :
    (upsertStep l n nm st info now).length = l.length := by
  induction l with
  | nil => simp at h
  | cons s rest ih =>
    by_cases hs : s.number = n
    · rw [upsert_cons, if_pos hs]
      simp
    · rw [upsert_cons, if_neg hs]
      have hrest : ∃ x ∈ rest, x.number = n := by
        rcases h with ⟨x, hx, hxn⟩
        rcases List.mem_cons.mp hx with h1 | h1
        · exact absurd (h1 ▸ hxn) hs
        · exact ⟨x, h1, hxn⟩
      simp [ih hrest]

lemma runCall_length_of_mem (steps : List StepInfo) (c : UpdCall)
    (h : ∃ s ∈ steps, s.number = c.step_number) :
    (runCall steps c).length = steps.length := by
  by_cases hok : callOk c
  · obtain ⟨hv, st, hp⟩ := hok
    rw [runCall_of_ok steps c st hv hp]
    by_cases ht : st = .success ∨ st = .failed
    · rw [if_pos ht, stamp_length, upsert_length_of_mem _ _ _ _ _ _ h]
    · rw [if_neg ht, upsert_length_of_mem _ _ _ _ _ _ h]
  · rw [runCall_of_fail steps c hok]

lemma stamp_append_not_mem (l l2 : List StepInfo) (n : Nat) (now : DT)
    (h : ∀ s ∈ l, s.number ≠ n) :
    stampCompleted (l ++ l2) n now = l ++ stampCompleted l2 n now := by
  induction l with
  | nil => rfl
  | cons s rest ih =>
    rw [List.cons_append, stamp_cons, if_neg (h s (List.mem_cons_self s rest))]
    rw [ih (fun x hx => h x (List.mem_cons_of_mem s hx))]
    rfl

/-- Pointwise effect of a successful update_step call with parsed status st on
a step already in the list: the matching step is overwritten and, for a
terminal status, completion-stamped; other steps are untouched. -/
def updMapFn (c : UpdCall) (st : StepStatus) : StepInfo → StepInfo :=
  fun s =>
    if s.number = c.step_number then
      if st = .success ∨ st = .failed then
        (overwrite s c.step_name st c.additional_info).markCompleted c.now
      else overwrite s c.step_name st c.additional_info
    else s

@[simp] lemma number_updMapFn (c : UpdCall) (st : StepStatus) (s : StepInfo) :
    (updMapFn c st s).number = s.number := by
  rw [updMapFn]
  by_cases h1 : s.number = c.step_number <;>
    by_cases ht : st = .success ∨ st = .failed <;> simp [h1, ht]

/-- Extensional shape of a successful update_step call whose step number is
already present: with distinct step numbers it acts as the pointwise map
updMapFn. -/
lemma runCall_ok_mem_eq (steps : List StepInfo) (c : UpdCall) (st : StepStatus)
    (hv : validateStepNumber c.step_number c.total_steps = .ok ())
    (hp : StepStatus.fromStr c.status = .ok st)
    (hnd : (steps.map StepInfo.number).Nodup)
    (hmem : c.step_number ∈ steps.map StepInfo.number) :
    runCall steps c = steps.map (updMapFn c st) := by
  rw [runCall_of_ok steps c st hv hp]
  by_cases ht : st = .success ∨ st = .failed
  · rw [if_pos ht]
    have hups := upsert_eq_map_of_mem steps c.step_number c.step_name st
      c.additional_info c.now hnd hmem
    have hnd1 : ((upsertStep steps c.step_number c.step_name st c.additional_info
        c.now).map StepInfo.number).Nodup := by
      rw [hups, List.map_map]
      have h2 : (steps.map (StepInfo.number ∘ fun s =>
          if s.number = c.step_number then overwrite s c.step_name st c.additional_info
          else s)) = steps.map StepInfo.number := by
        apply List.map_congr_left
        intro s _
        by_cases h1 : s.number = c.step_number <;> simp [h1]
      rw [h2]
      exact hnd
    rw [stamp_eq_map _ _ _ hnd1, hups, List.map_map]
    apply List.map_congr_left
    intro s _
    by_cases h1 : s.number = c.step_number <;> simp [updMapFn, h1, ht]
  · rw [if_neg ht]
    rw [upsert_eq_map_of_mem steps c.step_number c.step_name st c.additional_info
      c.now hnd hmem]
    apply List.map_congr_left
    intro s _
    by_cases h1 : s.number = c.step_number <;> simp [updMapFn, h1, ht]

/-- Extensional shape of a successful update_step call on a fresh step
number: the new step is appended at the end, completion-stamped when the
status is terminal. -/
lemma runCall_ok_fresh_eq (steps : List StepInfo) (c : UpdCall) (st : StepStatus)
    (hv : validateStepNumber c.step_number c.total_steps = .ok ())
    (hp : StepStatus.fromStr c.status = .ok st)
    (hfresh : ∀ s ∈ steps, s.number ≠ c.step_number) :
    runCall steps c = steps ++
      [if st = .success ∨ st = .failed then
        (StepInfo.new c.step_number c.step_name st c.additional_info c.now).markCompleted c.now
       else StepInfo.new c.step_number c.step_name st c.additional_info c.now] := by
  rw [runCall_of_ok steps c st hv hp]
  rw [upsert_of_not_mem steps c.step_number c.step_name st c.additional_info c.now hfresh]
  by_cases ht : st = .success ∨ st = .failed
  · rw [if_pos ht, if_pos ht, stamp_append_not_mem _ _ _ _ hfresh]
    rw [stamp_cons]
    simp [StepInfo.new, stampCompleted]
  · rw [if_neg ht, if_neg ht]

/-- Invariant tying the step list reached from a fresh tracker to the list of
update_step calls made so far: step numbers are pairwise distinct,
completed_at is set on a step exactly when some well-formed call with a
terminal status targeted its number, and every well-formed call's number has a
step in the list. -/
def Inv (seen : List UpdCall) (steps : List StepInfo) : Prop :=
  (steps.map StepInfo.number).Nodup ∧
  (∀ s ∈ steps, s.completed_at.isSome = true ↔
    ∃ c ∈ seen, callTerminal c ∧ c.step_number = s.number) ∧
  (∀ c ∈ seen, callOk c → ∃ s ∈ steps, s.number = c.step_number)

lemma inv_nil : Inv [] [] := ⟨List.nodup_nil, by simp, by simp⟩

lemma exists_call_append (seen : List UpdCall) (c : UpdCall) (m : Nat) :
    (∃ d ∈ seen ++ [c], callTerminal d ∧ d.step_number = m) ↔
      ((∃ d ∈ seen, callTerminal d ∧ d.step_number = m) ∨
        (callTerminal c ∧ c.step_number = m)) := by
  simp only [List.mem_append, List.mem_singleton]
  constructor
  · rintro ⟨d, h1 | rfl, ht, hm⟩
    · exact Or.inl ⟨d, h1, ht, hm⟩
    · exact Or.inr ⟨ht, hm⟩
  · rintro (⟨d, h1, ht, hm⟩ | ⟨ht, hm⟩)
    · exact ⟨d, Or.inl h1, ht, hm⟩
    · exact ⟨c, Or.inr rfl, ht, hm⟩

lemma inv_preserved (seen : List UpdCall) (steps : List StepInfo) (c : UpdCall)
    (h : Inv seen steps) : Inv (seen ++ [c]) (runCall steps c) := by
  obtain ⟨hnd, hcomp, hpres⟩ := h
  by_cases hok : callOk c
  · obtain ⟨hv, st, hp⟩ := hok
    have hterm_st : callTerminal c ↔ (st = .success ∨ st = .failed) := by
      constructor
      · rintro ⟨_, hc | hc⟩
        · rw [hp] at hc
          exact Or.inl (Except.ok.inj hc)
        · rw [hp] at hc
          exact Or.inr (Except.ok.inj hc)
      · rintro (rfl | rfl)
        · exact ⟨hv, Or.inl hp⟩
        · exact ⟨hv, Or.inr hp⟩
    by_cases hmem : c.step_number ∈ steps.map StepInfo.number
    · rw [runCall_ok_mem_eq steps c st hv hp hnd hmem]
      have hnums : ((steps.map (updMapFn c st)).map StepInfo.number) =
          steps.map StepInfo.number := by
        rw [List.map_map]
        apply List.map_congr_left
        intro s _
        simp
      refine ⟨by rw [hnums]; exact hnd, ?_, ?_⟩
      · intro u hu
        obtain ⟨s, hs, rfl⟩ := List.mem_map.mp hu
        rw [updMapFn]
        by_cases h1 : s.number = c.step_number
        · by_cases ht : st = .success ∨ st = .failed
          · rw [if_pos h1, if_pos ht]
            simp only [completed_markCompleted, number_markCompleted, number_overwrite,
              Option.isSome_some]
            rw [exists_call_append]
            constructor
            · intro _
              exact Or.inr ⟨hterm_st.mpr ht, h1.symm⟩
            · intro _
              trivial
          · rw [if_pos h1, if_neg ht]
            simp only [completed_overwrite, number_overwrite]
            rw [exists_call_append, hcomp s hs]
            constructor
            · exact Or.inl
            · rintro (h2 | ⟨ht2, _⟩)
              · exact h2
              · exact absurd (hterm_st.mp ht2) ht
        · rw [if_neg h1]
          rw [exists_call_append, hcomp s hs]
          constructor
          · exact Or.inl
          · rintro (h2 | ⟨_, hm2⟩)
            · exact h2
            · exact absurd (hm2 ▸ rfl) h1
      · intro d hd hdo
        have key : ∀ m, m ∈ steps.map StepInfo.number →
            ∃ u ∈ steps.map (updMapFn c st), u.number = m := by
          intro m hm
          have h2 : m ∈ ((steps.map (updMapFn c st)).map StepInfo.number) := by
            rw [hnums]
            exact hm
          obtain ⟨u, hu, hum⟩ := List.mem_map.mp h2
          exact ⟨u, hu, hum⟩
        rcases List.mem_append.mp hd with h1 | h1
        · obtain ⟨s, hs, hsn⟩ := hpres d h1 hdo
          exact key d.step_number (hsn ▸ List.mem_map_of_mem StepInfo.number hs)
        · rw [List.mem_singleton] at h1
          subst h1
          exact key d.step_number hmem
    · have hfresh : ∀ s ∈ steps, s.number ≠ c.step_number := by
        intro s hs hsn
        exact hmem (hsn ▸ List.mem_map_of_mem StepInfo.number hs)
      rw [runCall_ok_fresh_eq steps c st hv hp hfresh]
      have hnewnum : (if st = .success ∨ st = .failed then
          (StepInfo.new c.step_number c.step_name st c.additional_info c.now).markCompleted c.now
        else StepInfo.new c.step_number c.step_name st c.additional_info c.now).number =
          c.step_number := by
        by_cases ht : st = .success ∨ st = .failed <;> simp [ht, StepInfo.new]
      refine ⟨?_, ?_, ?_⟩
      · rw [List.map_append]
        simp only [List.map_cons, List.map_nil, hnewnum]
        rw [List.nodup_append]
        refine ⟨hnd, List.nodup_singleton _, ?_⟩
        intro m hm
        rw [List.mem_singleton]
        intro hmc
        subst hmc
        exact hmem hm
      · intro u hu
        rcases List.mem_append.mp hu with h1 | h1
        · rw [exists_call_append, hcomp u h1]
          constructor
          · exact Or.inl
          · rintro (h2 | ⟨_, hm2⟩)
            · exact h2
            · exact absurd (hm2 ▸ rfl) (hfresh u h1)
        · rw [List.mem_singleton] at h1
          subst h1
          rw [exists_call_append]
          by_cases ht : st = .success ∨ st = .failed
          · rw [if_pos ht]
            simp only [completed_markCompleted, Option.isSome_some, number_markCompleted]
            constructor
            · intro _
              exact Or.inr ⟨hterm_st.mpr ht, rfl⟩
            · intro _
              trivial
          · rw [if_neg ht]
            simp only [StepInfo.new, Option.isSome_none]
            constructor
            · intro h2
              exact absurd h2 (by simp)
            · rintro (⟨d, hd, hdt, hdm⟩ | ⟨ht2, _⟩)
              · obtain ⟨s, hs, hsn⟩ := hpres d hd hdt.ok
                exact absurd (hsn.trans hdm) (hfresh s hs)
              · exact absurd (hterm_st.mp ht2) ht
      · intro d hd hdo
        rcases List.mem_append.mp hd with h1 | h1
        · obtain ⟨s, hs, hsn⟩ := hpres d h1 hdo
          exact ⟨s, List.mem_append_left _ hs, hsn⟩
        · rw [List.mem_singleton] at h1
          subst h1
          refine ⟨_, List.mem_append_right _ (List.mem_singleton_self _), hnewnum⟩
  · rw [runCall_of_fail steps c hok]
    refine ⟨hnd, ?_, ?_⟩
    · intro s hs
      rw [exists_call_append, hcomp s hs]
      constructor
      · exact Or.inl
      · rintro (h2 | ⟨ht2, _⟩)
        · exact h2
        · exact absurd ht2.ok hok
    · intro d hd hdo
      rcases List.mem_append.mp hd with h1 | h1
      · exact hpres d h1 hdo
      · rw [List.mem_singleton] at h1
        subst h1
        exact absurd hdo hok
lemma inv_foldl (calls : List UpdCall) : ∀ seen steps, Inv seen steps →
    Inv (seen ++ calls) (calls.foldl runCall steps) := by
  induction calls with
  | nil => intro seen steps h; simpa using h
  | cons c rest ih =>
    intro seen steps h
    have h2 := inv_preserved seen steps c h
    have h3 := ih (seen ++ [c]) (runCall steps c) h2
    simpa using h3

lemma inv_runCalls (calls : List UpdCall) : Inv calls (runCalls calls) := by
  have h := inv_foldl calls [] [] inv_nil
  simpa [runCalls] using h

lemma upsert_getElem? (l : List StepInfo) (n : Nat) (nm : String)
    (st : StepStatus) (info : List (String × String)) (now : DT) (i : Nat)
    (s : StepInfo) (h : l[i]? = some s) :
    ∃ s2, (upsertStep l n nm st info now)[i]? = some s2 ∧
      s2.started_at = s.started_at ∧ s2.number = s.number ∧
      s2.completed_at = s.completed_at := by
  induction l generalizing i with
  | nil => simp at h
  | cons a rest ih =>
    by_cases ha : a.number = n
    · rw [upsert_cons, if_pos ha]
      cases i with
      | zero =>
        simp only [List.getElem?_cons_zero, Option.some.injEq] at h
        subst h
        exact ⟨overwrite a nm st info, by simp, rfl, rfl, rfl⟩
      | succ j =>
        simp only [List.getElem?_cons_succ] at h ⊢
        exact ⟨s, h, rfl, rfl, rfl⟩
    · rw [upsert_cons, if_neg ha]
      cases i with
      | zero =>
        simp only [List.getElem?_cons_zero, Option.some.injEq] at h
        subst h
        exact ⟨a, by simp, rfl, rfl, rfl⟩
      | succ j =>
        simp only [List.getElem?_cons_succ] at h ⊢
        exact ih j h

lemma stamp_getElem? (l : List StepInfo) (n : Nat) (now : DT) (i : Nat)
    (s : StepInfo) (h : l[i]? = some s) :
    ∃ s2, (stampCompleted l n now)[i]? = some s2 ∧
      s2.started_at = s.started_at ∧ s2.number = s.number ∧
      (s2.completed_at = s.completed_at ∨ s2.completed_at = some now) := by
  induction l generalizing i with
  | nil => simp at h
  | cons a rest ih =>
    by_cases ha : a.number = n
    · rw [stamp_cons, if_pos ha]
      cases i with
      | zero =>
        simp only [List.getElem?_cons_zero, Option.some.injEq] at h
        subst h
        exact ⟨a.markCompleted now, by simp, rfl, rfl, Or.inr rfl⟩
      | succ j =>
        simp only [List.getElem?_cons_succ] at h ⊢
        exact ⟨s, h, rfl, rfl, Or.inl rfl⟩
    · rw [stamp_cons, if_neg ha]
      cases i with
      | zero =>
        simp only [List.getElem?_cons_zero, Option.some.injEq] at h
        subst h
        exact ⟨a, by simp, rfl, rfl, Or.inl rfl⟩
      | succ j =>
        simp only [List.getElem?_cons_succ] at h ⊢
        exact ih j h

/-- One update_step call never resets a set completed_at: the step at each
position keeps a set completion timestamp (possibly re-stamped). -/
lemma runCall_preserves_completed (steps : List StepInfo) (c : UpdCall) (i : Nat)
    (s : StepInfo) (h : steps[i]? = some s) (hc : s.completed_at.isSome = true) :
    ∃ s2, (runCall steps c)[i]? = some s2 ∧ s2.completed_at.isSome = true := by
  by_cases hok : callOk c
  · obtain ⟨hv, st, hp⟩ := hok
    rw [runCall_of_ok steps c st hv hp]
    by_cases ht : st = .success ∨ st = .failed
    · rw [if_pos ht]
      obtain ⟨s1, h1, _, _, hc1⟩ :=
        upsert_getElem? steps c.step_number c.step_name st c.additional_info c.now i s h
      obtain ⟨s2, h2, _, _, hc2⟩ :=
        stamp_getElem? _ c.step_number c.now i s1 h1
      refine ⟨s2, h2, ?_⟩
      rcases hc2 with h3 | h3
      · rw [h3, hc1]
        exact hc
      · rw [h3]
        rfl
    · rw [if_neg ht]
      obtain ⟨s1, h1, _, _, hc1⟩ :=
        upsert_getElem? steps c.step_number c.step_name st c.additional_info c.now i s h
      refine ⟨s1, h1, ?_⟩
      rw [hc1]
      exact hc
  · rw [runCall_of_fail steps c hok]
    exact ⟨s, h, hc⟩

/-- Sample successful update_step call used by concrete witnesses. -/
def updCall1 : UpdCall := ⟨1, 2, "Build", "success", [], dt0⟩

/-- Sample overwriting update_step call used by concrete witnesses. -/
def updCall1b : UpdCall := ⟨1, 2, "Build2", "pending", [("k", "v")], dt0⟩

/-- Claim C5: after any sequence of update_step calls starting from the empty
list, step numbers are pairwise distinct; and an update_step call whose number
is already present leaves the list length unchanged (overwrite, no append). -/
theorem claim_C5 (calls : List UpdCall) (steps : List StepInfo) (c : UpdCall) :
    ((runCalls calls).map StepInfo.number).Nodup ∧
    ((∃ s ∈ steps, s.number = c.step_number) →
      (runCall steps c).length = steps.length) :=
  ⟨(inv_runCalls calls).1, fun h => runCall_length_of_mem steps c h⟩

/-- Witness for claim C5: a second call on the already-present step number 1
keeps the list length at 1. -/
theorem claim_C5_witness :
    ((runCalls [updCall1]).map StepInfo.number).Nodup ∧
    (runCall (runCalls [updCall1]) updCall1b).length = (runCalls [updCall1]).length :=
  ⟨(claim_C5 [updCall1] (runCalls [updCall1]) updCall1b).1,
   (claim_C5 [updCall1] (runCalls [updCall1]) updCall1b).2 (by decide)⟩

/-- Claim C6: in the list reached by any call sequence from the empty list, a
step's completed_at is set exactly when some well-formed call with a Success
or Failed status targeted its number; and no single call ever resets a set
completed_at back to none. -/
theorem claim_C6 (calls : List UpdCall) :
    (∀ s ∈ runCalls calls, s.completed_at.isSome = true ↔
      ∃ c ∈ calls, callTerminal c ∧ c.step_number = s.number) ∧
    (∀ (steps : List StepInfo) (c : UpdCall) (i : Nat) (s : StepInfo),
      steps[i]? = some s → s.completed_at.isSome = true →
      ∃ s2, (runCall steps c)[i]? = some s2 ∧ s2.completed_at.isSome = true) :=
  ⟨(inv_runCalls calls).2.1,
   fun steps c i s h hc => runCall_preserves_completed steps c i s h hc⟩

/-- Witness for claim C6 at a concrete terminal call and a concrete
pending overwrite of an already-completed step. -/
theorem claim_C6_witness :
    ((⟨1, "Build", .success, [], dt0, some dt0⟩ : StepInfo).completed_at.isSome = true ↔
      ∃ c ∈ [updCall1], callTerminal c ∧
        c.step_number = (⟨1, "Build", .success, [], dt0, some dt0⟩ : StepInfo).number) ∧
    (∃ s2, (runCall [⟨1, "Old", .pending, [], dt0, some dt0⟩] updCall1b)[0]? = some s2 ∧
      s2.completed_at.isSome = true) :=
  ⟨(claim_C6 [updCall1]).1 ⟨1, "Build", .success, [], dt0, some dt0⟩ (by decide),
   (claim_C6 [updCall1]).2 [⟨1, "Old", .pending, [], dt0, some dt0⟩] updCall1b 0
     ⟨1, "Old", .pending, [], dt0, some dt0⟩ rfl rfl⟩

lemma upsert_append_first (pre post : List StepInfo) (s : StepInfo)
    (nm : String) (st : StepStatus) (info : List (String × String)) (now : DT)
    (hpre : ∀ x ∈ pre, x.number ≠ s.number) :
    upsertStep (pre ++ s :: post) s.number nm st info now =
      pre ++ overwrite s nm st info :: post := by
  induction pre with
  | nil => rw [List.nil_append, upsert_cons, if_pos rfl, List.nil_append]
  | cons a rest ih =>
    rw [List.cons_append, upsert_cons,
      if_neg (hpre a (List.mem_cons_self a rest)),
      ih (fun x hx => hpre x (List.mem_cons_of_mem a hx)), List.cons_append]

lemma stamp_append_first (pre post : List StepInfo) (s : StepInfo) (now : DT)
    (hpre : ∀ x ∈ pre, x.number ≠ s.number) :
    stampCompleted (pre ++ s :: post) s.number now =
      pre ++ s.markCompleted now :: post := by
  rw [stamp_append_not_mem pre (s :: post) s.number now hpre, stamp_cons, if_pos rfl]

/-- Claim C10: when update_step succeeds on a number whose first occurrence is
the step s, that step's name, status and additional_info are replaced, its
started_at is kept, completed_at is stamped exactly when the new status is
Success or Failed, and every other entry of the list is untouched. -/
theorem claim_C10 (pre post : List StepInfo) (s : StepInfo) (total_steps : Nat)
    (step_name status : String) (additional_info : List (String × String))
    (now : DT) (st : StepStatus)
    (hpre : ∀ x ∈ pre, x.number ≠ s.number)
    (hv : validateStepNumber s.number total_steps = .ok ())
    (hp : StepStatus.fromStr status = .ok st) :
    updateStepList (pre ++ s :: post) s.number total_steps step_name status
        additional_info now =
      .ok (pre ++ { s with
        name := step_name
        status := st
        additional_info := additional_info
        completed_at :=
          if st = .success ∨ st = .failed then some now else s.completed_at } :: post) := by
  rw [updateStepList, hv, hp]
  by_cases ht : st = .success ∨ st = .failed
  · simp only [ht, if_true]
    rw [upsert_append_first pre post s step_name st additional_info now hpre]
    have hpre2 : ∀ x ∈ pre, x.number ≠ (overwrite s step_name st additional_info).number := by
      simpa using hpre
    have h2 := stamp_append_first pre post (overwrite s step_name st additional_info) now hpre2
    rw [number_overwrite] at h2
    rw [h2]
    rfl
  · simp only [ht, if_false]
    rw [upsert_append_first pre post s step_name st additional_info now hpre]
    rfl

/-- Witness for claim C10: overwriting the pending step 1 with a failed status
keeps started_at, replaces the other fields and stamps completed_at. -/
theorem claim_C10_witness :
    updateStepList [⟨1, "Old", .pending, [], dt0, none⟩] 1 1 "New" "failed"
        [("error", "timeout")] dt0 =
      .ok [⟨1, "New", .failed, [("error", "timeout")], dt0, some dt0⟩] :=
  claim_C10 [] [] ⟨1, "Old", .pending, [], dt0, none⟩ 1 "New" "failed"
    [("error", "timeout")] dt0 .failed (by simp) rfl rfl

/-- Persisted snapshot, from PipelineState in src/storage.rs. -/
structure PipelineState where
  message_id : String
  pr_number : Nat
  pr_title : String
  author : String
  repository : String
  branch : String
  steps : List StepInfo
  pipeline_started_at : DT
deriving DecidableEq, Repr

/-- PR context held by the tracker, from PrInfo in src/pipeline_tracker.rs. -/
structure PrInfo where
  number : String
  title : String
  author : String
  repository : String
  branch : String
deriving DecidableEq, Repr

/-- In-memory fields of PipelineTracker, from src/pipeline_tracker.rs (the api
and storage handles are modelled by the effect outputs of the operations). -/
structure TrackerState where
  message_id : Option String
  steps : List StepInfo
  pr_info : Option PrInfo
  pipeline_started_at : Option DT
deriving DecidableEq, Repr

/-- Embedding of PipelineTracker::complete_pipeline from
src/pipeline_tracker.rs: the result is the list of PATCH calls issued to the
remote message (message id with the completion embed) and the new content of
the persisted snapshot file, given its previous content. The embed is built
only when pr_info and pipeline_started_at are both present, the PATCH is
issued only when additionally a message id is known, and clear_pipeline_state
runs unconditionally at the end, so the resulting file content is always
none. The duration Utc::now() - start_time is modelled by durSecs. -/
def completePipeline (t : TrackerState) (stored : Option PipelineState)
    (durSecs : Int) (now : DT) :
    List (String × DiscordEmbed) × Option PipelineState :=
  let calls :=
    match t.pr_info, t.pipeline_started_at with
    | some pr, some _ =>
      let total_steps := t.steps.length
      let embed := buildCompletionEmbed pr.number pr.title t.steps total_steps durSecs now
      match t.message_id with
      | some mid => [(mid, embed)]
      | none => []
    | _, _ => []
  (calls, none)

/-- Sample persisted snapshot used by concrete witnesses. -/
def state0 : PipelineState := ⟨"m1", 42, "T", "a", "r", "b", [], dt0⟩

/-- Tracker state of a process in which no init occurred. -/
def trackerNoInit : TrackerState := ⟨none, [], none, none⟩

/-- Claim C8 (amended): with pr_info or the start time absent,
complete_pipeline issues no remote call and renders nothing, but it still
clears the persisted snapshot file rather than leaving it unchanged. -/
theorem claim_C8_amended (t : TrackerState) (stored : Option PipelineState)
    (durSecs : Int) (now : DT)
    (h : t.pr_info = none ∨ t.pipeline_started_at = none) :
    (completePipeline t stored durSecs now).1 = [] ∧
    (completePipeline t stored durSecs now).2 = none := by
  rcases h with h | h
  · simp [completePipeline, h]
  · cases hp : t.pr_info <;> simp [completePipeline, h, hp]

/-- Counterexample to claim C8 as stated: with no init in this process and a
nonempty stored snapshot, complete_pipeline makes no remote call, but the
persisted snapshot does not stay unchanged: it is cleared. -/
theorem claim_C8_counterexample :
    (completePipeline trackerNoInit (some state0) 0 dt0).1 = [] ∧
    (completePipeline trackerNoInit (some state0) 0 dt0).2 = none ∧
    (none : Option PipelineState) ≠ some state0 :=
  ⟨rfl, rfl, by simp⟩

/-- Witness for claim C8 at the concrete uninitialized tracker. -/
theorem claim_C8_witness :
    (completePipeline trackerNoInit (some state0) 0 dt0).1 = [] ∧
    (completePipeline trackerNoInit (some state0) 0 dt0).2 = none :=
  claim_C8_amended trackerNoInit (some state0) 0 dt0 (Or.inl rfl)

/-- Component bounds guaranteed by chrono for any DateTime<Utc> value (leap
seconds, which chrono encodes as nanos of at least one billion, are outside
the model). -/
def ValidDT (d : DT) : Prop :=
  d.year < 10000 ∧ 1 ≤ d.month ∧ d.month ≤ 12 ∧ 1 ≤ d.day ∧ d.day ≤ 31 ∧
  d.hour < 24 ∧ d.minute < 60 ∧ d.second < 60 ∧ d.nanos < 1000000000

instance (d : DT) : Decidable (ValidDT d) := by
  unfold ValidDT
  infer_instance

/-- Six-digit zero-padded decimal rendering (for values below one million). -/
def pad6 (n : Nat) : List Char := pad3 (n / 1000) ++ pad3 (n % 1000)

/-- Nine-digit zero-padded decimal rendering (for values below one billion). -/
def pad9 (n : Nat) : List Char :=
  pad3 (n / 1000000) ++ pad3 (n / 1000 % 1000) ++ pad3 (n % 1000)

/-- Subsecond rendering used by chrono: nothing for zero nanoseconds, else a
dot and 3, 6 or 9 digits depending on millisecond or microsecond
divisibility. -/
def fracChars (nanos : Nat) : List Char :=
  if nanos = 0 then []
  else if nanos % 1000000 = 0 then '.' :: pad3 (nanos / 1000000)
  else if nanos % 1000 = 0 then '.' :: pad6 (nanos / 1000)
  else '.' :: pad9 nanos

/-- Characters of the RFC3339 rendering chrono serializes a DateTime<Utc> to:
yyyy-mm-ddThh:mm:ss followed by the subsecond part and Z. -/
def dtChars (d : DT) : List Char :=
  pad4 d.year ++ '-' :: pad2 d.month ++ '-' :: pad2 d.day ++
  'T' :: pad2 d.hour ++ ':' :: pad2 d.minute ++ ':' :: pad2 d.second ++
  fracChars d.nanos ++ ['Z']

/-- Model of chrono's serde serialization of DateTime<Utc>: the canonical
RFC3339 text with Z suffix. -/
def dtToString (d : DT) : String := String.mk (dtChars d)

/-- Decimal digit value of a character, if any. -/
def digit? (c : Char) : Option Nat :=
  if 48 ≤ c.toNat ∧ c.toNat ≤ 57 then some (c.toNat - 48) else none

/-- Parses exactly two decimal digits. -/
def parse2 : List Char → Option (Nat × List Char)
| c1 :: c2 :: rest => do
  let d1 ← digit? c1
  let d2 ← digit? c2
  some (10 * d1 + d2, rest)
| _ => none

/-- Parses exactly four decimal digits. -/
def parse4 : List Char → Option (Nat × List Char)
| c1 :: c2 :: c3 :: c4 :: rest => do
  let d1 ← digit? c1
  let d2 ← digit? c2
  let d3 ← digit? c3
  let d4 ← digit? c4
  some (1000 * d1 + 100 * d2 + 10 * d3 + d4, rest)
| _ => none

/-- Consumes one expected character. -/
def expectChar (c : Char) : List Char → Option (List Char)
| x :: rest => if x = c then some rest else none
| [] => none

lemma expectChar_cons_self (c : Char) (rest : List Char) :
    expectChar c (c :: rest) = some rest := by
  simp [expectChar]

/-- Splits off the longest leading run of decimal digits. -/
def takeDigits : List Char → List Nat × List Char
| [] => ([], [])
| c :: rest =>
  match digit? c with
  | some d =>
    let r := takeDigits rest
    (d :: r.1, r.2)
  | none => ([], c :: rest)

/-- Value of a big-endian decimal digit list. -/
def digitsVal (ds : List Nat) : Nat := ds.foldl (fun a d => 10 * a + d) 0

/-- Parses an optional subsecond part: a dot followed by one to nine digits,
scaled to nanoseconds; no dot means zero nanoseconds. -/
def parseFrac : List Char → Option (Nat × List Char)
| '.' :: rest =>
  let r := takeDigits rest
  if 1 ≤ r.1.length ∧ r.1.length ≤ 9 then
    some (digitsVal r.1 * 10 ^ (9 - r.1.length), r.2)
  else none
| rest => some (0, rest)

/-- Model of chrono's RFC3339 deserialization of DateTime<Utc>, restricted to
the canonical Z-suffixed form the serializer emits (chrono's parser also
accepts equivalent spellings such as explicit offsets; the restriction does
not affect the serialize-then-deserialize round trip). -/
def dtParse (cs : List Char) : Option DT := do
  let (y, r1) ← parse4 cs
  let r2 ← expectChar '-' r1
  let (mo, r3) ← parse2 r2
  let r4 ← expectChar '-' r3
  let (da, r5) ← parse2 r4
  let r6 ← expectChar 'T' r5
  let (h, r7) ← parse2 r6
  let r8 ← expectChar ':' r7
  let (mi, r9) ← parse2 r8
  let r10 ← expectChar ':' r9
  let (se, r11) ← parse2 r10
  let (na, r12) ← parseFrac r11
  let r13 ← expectChar 'Z' r12
  if r13 = [] ∧ 1 ≤ mo ∧ mo ≤ 12 ∧ 1 ≤ da ∧ da ≤ 31 ∧ h < 24 ∧ mi < 60 ∧ se < 60 then
    some ⟨y, mo, da, h, mi, se, na⟩
  else none

/-- String-level datetime deserialization. -/
def dtFromString (s : String) : Option DT := dtParse s.data

lemma digit?_digitChar (d : Nat) (h : d < 10) : digit? (digitChar d) = some d := by
  interval_cases d <;> rfl

lemma parse2_pad2 (n : Nat) (h : n < 100) (rest : List Char) :
    parse2 (pad2 n ++ rest) = some (n, rest) := by
  have h1 : n / 10 < 10 := by omega
  have h2 : n % 10 < 10 := by omega
  simp only [pad2, List.cons_append, List.nil_append, parse2,
    digit?_digitChar _ h1, digit?_digitChar _ h2]
  show some (10 * (n / 10) + n % 10, rest) = some (n, rest)
  have hn : 10 * (n / 10) + n % 10 = n := by omega
  rw [hn]

lemma parse4_pad4 (n : Nat) (h : n < 10000) (rest : List Char) :
    parse4 (pad4 n ++ rest) = some (n, rest) := by
  have h1 : n / 1000 < 10 := by omega
  have h2 : n / 100 % 10 < 10 := by omega
  have h3 : n / 10 % 10 < 10 := by omega
  have h4 : n % 10 < 10 := by omega
  simp only [pad4, List.cons_append, List.nil_append, parse4,
    digit?_digitChar _ h1, digit?_digitChar _ h2, digit?_digitChar _ h3,
    digit?_digitChar _ h4]
  show some (1000 * (n / 1000) + 100 * (n / 100 % 10) + 10 * (n / 10 % 10) + n % 10, rest) =
    some (n, rest)
  have hn : 1000 * (n / 1000) + 100 * (n / 100 % 10) + 10 * (n / 10 % 10) + n % 10 = n := by
    omega
  rw [hn]

lemma takeDigits_not_digit (c : Char) (t : List Char) (h : digit? c = none) :
    takeDigits (c :: t) = ([], c :: t) := by
  rw [takeDigits, h]

lemma takeDigits_pad3 (m : Nat) (h : m < 1000) (c : Char) (t : List Char)
    (hc : digit? c = none) :
    takeDigits (pad3 m ++ c :: t) = ([m / 100, m / 10 % 10, m % 10], c :: t) := by
  have h1 : m / 100 < 10 := by omega
  have h2 : m / 10 % 10 < 10 := by omega
  have h3 : m % 10 < 10 := by omega
  simp only [pad3, List.cons_append, List.nil_append, takeDigits,
    digit?_digitChar _ h1, digit?_digitChar _ h2, digit?_digitChar _ h3, hc]

lemma takeDigits_pad3_prefix (m : Nat) (h : m < 1000) (rest : List Char) :
    takeDigits (pad3 m ++ rest) =
      ((m / 100) :: (m / 10 % 10) :: (m % 10) :: (takeDigits rest).1,
        (takeDigits rest).2) := by
  have h1 : m / 100 < 10 := by omega
  have h2 : m / 10 % 10 < 10 := by omega
  have h3 : m % 10 < 10 := by omega
  simp only [pad3, List.cons_append, List.nil_append, takeDigits,
    digit?_digitChar _ h1, digit?_digitChar _ h2, digit?_digitChar _ h3]
  rfl

lemma digit?_Z : digit? 'Z' = none := rfl

lemma parseFrac_fracChars (nanos : Nat) (h : nanos < 1000000000) (t : List Char) :
    parseFrac (fracChars nanos ++ 'Z' :: t) = some (nanos, 'Z' :: t) := by
  by_cases h0 : nanos = 0
  · subst h0
    rfl
  · by_cases h6 : nanos % 1000000 = 0
    · have hq : nanos / 1000000 < 1000 := by omega
      simp only [fracChars, h0, h6, if_false, if_true, List.cons_append, parseFrac,
        takeDigits_pad3 _ hq _ t digit?_Z]
      simp only [List.length_cons, List.length_nil, digitsVal, List.foldl]
      norm_num
      omega
    · by_cases h3 : nanos % 1000 = 0
      · have hq : nanos / 1000 < 1000000 := by omega
        have hq1 : nanos / 1000 / 1000 < 1000 := by omega
        have hq2 : nanos / 1000 % 1000 < 1000 := by omega
        simp only [fracChars, h0, h6, h3, if_false, if_true, List.cons_append, pad6,
          List.append_assoc, parseFrac,
          takeDigits_pad3_prefix _ hq1, takeDigits_pad3 _ hq2 _ t digit?_Z]
        simp only [List.length_cons, List.length_nil, digitsVal, List.foldl]
        norm_num
        omega
      · have hq1 : nanos / 1000000 < 1000 := by omega
        have hq2 : nanos / 1000 % 1000 < 1000 := by omega
        have hq3 : nanos % 1000 < 1000 := by omega
        simp only [fracChars, h0, h6, h3, if_false, List.cons_append, pad9,
          List.append_assoc, parseFrac,
          takeDigits_pad3_prefix _ hq1, takeDigits_pad3_prefix _ hq2,
          takeDigits_pad3 _ hq3 _ t digit?_Z]
        simp only [List.length_cons, List.length_nil, digitsVal, List.foldl]
        norm_num
        omega

/-- Serializing a valid datetime and parsing the result reproduces it. -/
theorem dtParse_dtChars (d : DT) (h : ValidDT d) : dtParse (dtChars d) = some d := by
  obtain ⟨hy, hmo1, hmo2, hda1, hda2, hh, hmi, hse, hna⟩ := h
  have hmo : d.month < 100 := by omega
  have hda : d.day < 100 := by omega
  have hh2 : d.hour < 100 := by omega
  have hmi2 : d.minute < 100 := by omega
  have hse2 : d.second < 100 := by omega
  rw [dtChars]
  simp only [List.cons_append, List.append_assoc]
  simp only [dtParse, Option.pure_def, Option.bind_eq_bind, parse4_pad4 _ hy,
    Option.some_bind, expectChar_cons_self, parse2_pad2 _ hmo, parse2_pad2 _ hda,
    parse2_pad2 _ hh2, parse2_pad2 _ hmi2, parse2_pad2 _ hse2,
    parseFrac_fracChars _ hna]
  rw [if_pos ⟨trivial, hmo1, hmo2, hda1, hda2, hh, hmi, hse⟩]

/-- Round trip at the string level. -/
theorem dtFromString_dtToString (d : DT) (h : ValidDT d) :
    dtFromString (dtToString d) = some d := by
  rw [dtToString, dtFromString]
  exact dtParse_dtChars d h

/-- JSON value, modelling serde_json::Value as far as this program's state
serialization needs (no booleans or floats occur in PipelineState). The
(de)serialization of save_pipeline_state and load_pipeline_state is modelled
at this value level; serde_json's own text printing and parsing of values is
taken as given. -/
inductive Json where
| null : Json
| num (n : Int) : Json
| str (s : String) : Json
| arr (items : List Json) : Json
| obj (fields : List (String × Json)) : Json

/-- serde serialization of the StepStatus unit enum: the variant name as a
JSON string. -/
def encodeStatus : StepStatus → Json
| .success => .str "Success"
| .pending => .str "Pending"
| .failed => .str "Failed"

/-- serde deserialization of StepStatus. -/
def decodeStatus : Json → Option StepStatus
| .str s =>
  if s = "Success" then some .success
  else if s = "Pending" then some .pending
  else if s = "Failed" then some .failed
  else none
| _ => none

/-- serde serialization of a (String, String) tuple: a two-element array. -/
def encodePair (p : String × String) : Json := .arr [.str p.1, .str p.2]

/-- serde deserialization of a (String, String) tuple. -/
def decodePair : Json → Option (String × String)
| .arr [.str a, .str b] => some (a, b)
| _ => none

/-- serde serialization of Option<DateTime<Utc>>: null or the RFC3339 text. -/
def encodeOptDT : Option DT → Json
| none => .null
| some d => .str (dtToString d)

/-- serde deserialization of Option<DateTime<Utc>>. -/
def decodeOptDT : Json → Option (Option DT)
| .null => some none
| .str s => (dtFromString s).map some
| _ => none

/-- serde serialization of StepInfo (src/models.rs), fields in declaration
order. -/
def encodeStep (s : StepInfo) : Json :=
  .obj [("number", .num s.number), ("name", .str s.name),
        ("status", encodeStatus s.status),
        ("additional_info", .arr (s.additional_info.map encodePair)),
        ("started_at", .str (dtToString s.started_at)),
        ("completed_at", encodeOptDT s.completed_at)]

/-- Field lookup in a JSON object, as serde's derived deserializer matches
fields by name. -/
def lookupField (fields : List (String × Json)) (key : String) : Option Json :=
  (fields.find? (fun p => decide (p.1 = key))).map (fun p => p.2)

/-- serde deserialization of a u32 from a JSON number: the value must be a
nonnegative integer below 2^32. -/
def asU32 : Json → Option Nat
| .num (.ofNat m) => if m < 4294967296 then some m else none
| _ => none

/-- serde deserialization of a String. -/
def asString : Json → Option String
| .str s => some s
| _ => none

/-- serde deserialization of a DateTime<Utc>. -/
def asDT : Json → Option DT
| .str s => dtFromString s
| _ => none

/-- serde deserialization of a Vec from a JSON array. -/
def decodeList {α : Type} (f : Json → Option α) : Json → Option (List α)
| .arr items => items.mapM f
| _ => none

/-- serde deserialization of StepInfo. -/
def decodeStep (j : Json) : Option StepInfo :=
  match j with
  | .obj fields => do
    let n ← (lookupField fields "number").bind asU32
    let nm ← (lookupField fields "name").bind asString
    let st ← (lookupField fields "status").bind decodeStatus
    let info ← (lookupField fields "additional_info").bind (decodeList decodePair)
    let sa ← (lookupField fields "started_at").bind asDT
    let ca ← (lookupField fields "completed_at").bind decodeOptDT
    some ⟨n, nm, st, info, sa, ca⟩
  | _ => none

/-- serde serialization of PipelineState (src/storage.rs), fields in
declaration order, as written by save_pipeline_state. -/
def encodeState (st : PipelineState) : Json :=
  .obj [("message_id", .str st.message_id), ("pr_number", .num st.pr_number),
        ("pr_title", .str st.pr_title), ("author", .str st.author),
        ("repository", .str st.repository), ("branch", .str st.branch),
        ("steps", .arr (st.steps.map encodeStep)),
        ("pipeline_started_at", .str (dtToString st.pipeline_started_at))]

/-- serde deserialization of PipelineState, as read by load_pipeline_state. -/
def decodeState (j : Json) : Option PipelineState :=
  match j with
  | .obj fields => do
    let mid ← (lookupField fields "message_id").bind asString
    let prn ← (lookupField fields "pr_number").bind asU32
    let prt ← (lookupField fields "pr_title").bind asString
    let au ← (lookupField fields "author").bind asString
    let re ← (lookupField fields "repository").bind asString
    let br ← (lookupField fields "branch").bind asString
    let steps ← (lookupField fields "steps").bind (decodeList decodeStep)
    let psa ← (lookupField fields "pipeline_started_at").bind asDT
    some ⟨mid, prn, prt, au, re, br, steps, psa⟩
  | _ => none

/-- Validity of an optional completion timestamp. -/
def ValidOptDT : Option DT → Prop
| none => True
| some d => ValidDT d

instance (o : Option DT) : Decidable (ValidOptDT o) := by
  cases o with
  | none => exact .isTrue trivial
  | some d =>
    show Decidable (ValidDT d)
    infer_instance

/-- Invariants a StepInfo coming from the Rust program always satisfies: its
number is a u32 and its chrono timestamps are in-range. -/
def ValidStep (s : StepInfo) : Prop :=
  s.number < 4294967296 ∧ ValidDT s.started_at ∧ ValidOptDT s.completed_at

instance (s : StepInfo) : Decidable (ValidStep s) := by
  unfold ValidStep
  infer_instance

/-- Invariants a PipelineState coming from the Rust program always
satisfies. -/
def ValidState (st : PipelineState) : Prop :=
  st.pr_number < 4294967296 ∧ ValidDT st.pipeline_started_at ∧
  ∀ s ∈ st.steps, ValidStep s

instance (st : PipelineState) : Decidable (ValidState st) := by
  unfold ValidState
  infer_instance

lemma asU32_num (m : Nat) (h : m < 4294967296) :
    asU32 (.num (.ofNat m)) = some m := by
  show (if m < 4294967296 then some m else none) = some m
  rw [if_pos h]

lemma decodeStatus_encodeStatus (st : StepStatus) :
    decodeStatus (encodeStatus st) = some st := by
  cases st <;> rfl

lemma decodePair_encodePair (p : String × String) :
    decodePair (encodePair p) = some p := rfl

lemma decodeOptDT_encodeOptDT (o : Option DT) (h : ValidOptDT o) :
    decodeOptDT (encodeOptDT o) = some o := by
  cases o with
  | none => rfl
  | some d =>
    show (dtFromString (dtToString d)).map some = some (some d)
    rw [dtFromString_dtToString d h]
    rfl

lemma mapM_map_roundtrip {α : Type} (f : α → Json) (g : Json → Option α)
    (l : List α) (h : ∀ x ∈ l, g (f x) = some x) :
    (l.map f).mapM g = some l := by
  induction l with
  | nil => rfl
  | cons a rest ih =>
    rw [List.map_cons, List.mapM_cons, h a (List.mem_cons_self a rest),
      ih (fun x hx => h x (List.mem_cons_of_mem a hx))]
    rfl

set_option maxRecDepth 4000 in
lemma decodeStep_encodeStep (s : StepInfo) (h : ValidStep s) :
    decodeStep (encodeStep s) = some s := by
  obtain ⟨hn, hsa, hca⟩ := h
  have hinfo : (s.additional_info.map encodePair).mapM decodePair =
      some s.additional_info :=
    mapM_map_roundtrip encodePair decodePair s.additional_info
      (fun x _ => decodePair_encodePair x)
  have e : decodeStep (encodeStep s) =
      (asU32 (.num (.ofNat s.number))).bind (fun n =>
        (decodeStatus (encodeStatus s.status)).bind (fun st =>
          ((s.additional_info.map encodePair).mapM decodePair).bind (fun info =>
            (dtFromString (dtToString s.started_at)).bind (fun sa =>
              (decodeOptDT (encodeOptDT s.completed_at)).bind (fun ca =>
                some ⟨n, s.name, st, info, sa, ca⟩))))) := rfl
  rw [e, asU32_num _ hn, decodeStatus_encodeStatus, hinfo,
    dtFromString_dtToString s.started_at hsa,
    decodeOptDT_encodeOptDT s.completed_at hca]
  rfl

set_option maxRecDepth 4000 in
lemma decodeState_encodeState (st : PipelineState) (h : ValidState st) :
    decodeState (encodeState st) = some st := by
  obtain ⟨hn, hsa, hsteps⟩ := h
  have hst : (st.steps.map encodeStep).mapM decodeStep = some st.steps :=
    mapM_map_roundtrip encodeStep decodeStep st.steps
      (fun x hx => decodeStep_encodeStep x (hsteps x hx))
  have e : decodeState (encodeState st) =
      (asU32 (.num (.ofNat st.pr_number))).bind (fun prn =>
        ((st.steps.map encodeStep).mapM decodeStep).bind (fun steps =>
          (dtFromString (dtToString st.pipeline_started_at)).bind (fun psa =>
            some ⟨st.message_id, prn, st.pr_title, st.author, st.repository,
              st.branch, steps, psa⟩))) := rfl
  rw [e, asU32_num _ hn, hst,
    dtFromString_dtToString st.pipeline_started_at hsa]
  rfl

/-- Claim C7: serializing a PipelineState as save does and deserializing the
result reproduces an equal value field for field (the hypothesis is the
invariant every state built by the program satisfies: u32 pr_number and
in-range chrono timestamps). -/
theorem claim_C7 (st : PipelineState) (h : ValidState st) :
    decodeState (encodeState st) = some st :=
  decodeState_encodeState st h

/-- Sample state with one completed step used by the claim C7 witness. -/
def stateW : PipelineState :=
  ⟨"1398595302564872", 42, "Add feature", "alice", "org/repo", "feature-x",
    [⟨1, "Build", .success, [("key", "value")], ⟨2024, 3, 9, 14, 30, 5, 123000000⟩,
      some ⟨2024, 3, 9, 14, 31, 0, 7⟩⟩],
    ⟨2024, 3, 9, 14, 29, 59, 0⟩⟩

/-- Witness for claim C7 at a concrete snapshot. -/
theorem claim_C7_witness : decodeState (encodeState stateW) = some stateW :=
  claim_C7 stateW (by decide)

end Tracker
